import Mathlib

/-!
Verification development for the tap-mailchimp extraction engine.

The Python source (tap_mailchimp/client.py, tap_mailchimp/streams.py) is
shallowly embedded below: JSON values become an inductive `JValue`, Python
dicts become association lists (Python dicts keep unique keys and insertion
order, which association lists model faithfully for the operations used),
Python exceptions (KeyError, TypeError, parse errors) become `Option`
results with `none` for a raised exception.
-/

namespace TapMailchimp

/-- A decoded JSON value, as produced by `response.json()` in the source. -/
inductive JValue where
  | null : JValue
  | bool (b : Bool) : JValue
  | num (n : Int) : JValue
  | str (s : String) : JValue
  | arr (items : List JValue) : JValue
  | obj (fields : List (String × JValue)) : JValue

/-- A decoded record: a Python dict of field name to value. -/
abbrev Record := List (String × JValue)

/-- Python dict lookup `d[k]` on an object's field list: first binding wins
(a real dict has unique keys; first-match lookup agrees with dict semantics
on unique-key lists). `none` models a raised KeyError. -/
def lookupField : Record → String → Option JValue
  | [], _ => none
  | p :: ps, k => if p.1 = k then some p.2 else lookupField ps k

/-- Field access `response.json()[key]` on a JSON value: only objects have
fields; `none` models a raised KeyError / TypeError. -/
def getField (v : JValue) (k : String) : Option JValue :=
  match v with
  | JValue.obj fields => lookupField fields k
  | _ => none

/-- Python's `len(v)` on a decoded JSON value: defined for lists, strings
and dicts; `none` models the TypeError raised on other types. -/
def pyLen : JValue → Option Nat
  | JValue.arr items => some items.length
  | JValue.str s => some s.length
  | JValue.obj fields => some fields.length
  | _ => none

/-- `PAGE_SIZE = 1000` from client.py. -/
def PAGE_SIZE : Nat := 1000

/-- `MailchimpPaginator.has_more` from client.py:
`return len(response.json()[self.response_key])`. The returned int is used
for truthiness by the paginator loop; `none` models the KeyError raised
when `response_key` is absent or the TypeError when its value has no
length. -/
def has_more (response_key : String) (response : JValue) : Option Nat :=
  (getField response response_key).bind pyLen

/-- Outcome of feeding a finite prefix of responses to the pagination
loop, recording the offset token of every request made. -/
inductive PagResult where
  | halted (offsets : List Nat)
  | pending (offsets : List Nat)
  | error (offsets : List Nat)
  deriving DecidableEq, Repr

/-- The pagination loop around `MailchimpPaginator`, as driven by the
singer-sdk request loop (an external collaborator): `MailchimpPaginator`
starts at offset 0 (`start_value=0` in client.py), each request carries the
current offset, and after each response the offset paginator either stops
(when `has_more` is falsy, i.e. the record list is empty) or advances by
`page_size = PAGE_SIZE`. `halted os` means the loop terminated after
consuming exactly these responses, `pending os` means it consumed them all
and still wants another page, `error os` means `has_more` raised. -/
def paginate (response_key : String) (offset : Nat) : List JValue → PagResult
  | [] => PagResult.pending []
  | r :: rs =>
    match has_more response_key r with
    | none => PagResult.error [offset]
    | some n =>
      if n = 0 then PagResult.halted [offset]
      else
        match paginate response_key (offset + PAGE_SIZE) rs with
        | PagResult.halted os => PagResult.halted (offset :: os)
        | PagResult.pending os => PagResult.pending (offset :: os)
        | PagResult.error os => PagResult.error (offset :: os)

/-- Python's `v == ""` test used by `MailchimpStream.post_process`. -/
def isEmptyStr : JValue → Bool
  | JValue.str s => s = ""
  | _ => false

/-- `MailchimpStream.post_process` from client.py:
`{k: None if v == "" else v for k, v in row.items()}`. -/
def post_process (row : Record) : Record :=
  row.map (fun p => (p.1, if isEmptyStr p.2 then JValue.null else p.2))

/-- A value stored in the URL-parameter dict built by `get_url_params`:
ints (offset, count), strings (exclude_fields), or the datetime object
returned by `get_starting_timestamp` (kept opaque, indexed by a Nat key
from the model of timestamps below). -/
inductive PValue where
  | int (n : Nat) : PValue
  | str (s : String) : PValue
  | dt (t : Nat) : PValue
  deriving DecidableEq, Repr

/-- The `exclude_fields` query value from `MailchimpStream.get_url_params`:
`','.join(f'{response_key}.{fname}' for fname in self.exclude_fields)`. -/
def joinExcludeFields (response_key : String) (exclude_fields : List String) : String :=
  String.intercalate "," (exclude_fields.map (fun fname => response_key ++ "." ++ fname))

/-- `MailchimpStream.get_url_params` from client.py. The dict is modelled as
an association list in insertion order: `offset` only when the token is
truthy (a nonzero int), `exclude_fields` only when the stream's
`exclude_fields` list is non-empty, then `count = PAGE_SIZE`. -/
def get_url_params (response_key : String) (exclude_fields : List String)
    (next_page_token : Nat) : List (String × PValue) :=
  (if next_page_token ≠ 0 then [("offset", PValue.int next_page_token)] else [])
    ++ (if exclude_fields ≠ [] then
          [("exclude_fields", PValue.str (joinExcludeFields response_key exclude_fields))]
        else [])
    ++ [("count", PValue.int PAGE_SIZE)]

/-- `ReportsEmailActivity.get_url_params` from streams.py: the base params
(`response_key = 'emails'`, default `exclude_fields = ['_links']`) plus
`params['since'] = self.get_starting_timestamp(context)`; `starting` is
that timestamp value. -/
def reportsEmailActivity_get_url_params (next_page_token : Nat) (starting : PValue) :
    List (String × PValue) :=
  get_url_params "emails" ["_links"] next_page_token ++ [("since", starting)]

/-- `ListsMembersStream.get_url_params` from streams.py: the base params
(`response_key = 'members'`, `exclude_fields = ['_links', 'merge_fields',
'location']`) plus `params['since_last_changed'] = self.get_starting_timestamp(context)`. -/
def listsMembers_get_url_params (next_page_token : Nat) (starting : PValue) :
    List (String × PValue) :=
  get_url_params "members" ["_links", "merge_fields", "location"] next_page_token
    ++ [("since_last_changed", starting)]

/-- `ReportsUnsubscribes.get_url_params` from streams.py: the base params
(`response_key = 'unsubscribes'`, default `exclude_fields = ['_links']`)
plus `params['since'] = self.get_starting_timestamp(context)`. -/
def reportsUnsubscribes_get_url_params (next_page_token : Nat) (starting : PValue) :
    List (String × PValue) :=
  get_url_params "unsubscribes" ["_links"] next_page_token ++ [("since", starting)]

/-- Python dict `d.pop(k)`: the value at `k` together with the dict without
that key; `none` models the KeyError when `k` is absent. -/
def popField (r : Record) (k : String) : Option (JValue × Record) :=
  (lookupField r k).map (fun v => (v, r.filter (fun p => p.1 ≠ k)))

/-- Python dict merge `{**a, **b}`: keys of `a` in order with values
overridden by `b` where both define the key, followed by the keys of `b`
not in `a`, in the order of `b`. -/
def dictMerge (a b : Record) : Record :=
  (a.map (fun p => (p.1, match lookupField b p.1 with
    | some v => v
    | none => p.2)))
    ++ b.filter (fun p => (lookupField a p.1).isNone)

/-- Interpret a JSON value as the list of dicts iterated and splatted by
`for activity in activities: yield {**transformed_record, **activity}`;
`none` models the TypeError when the value is not a list of mappings. -/
def asObjList : JValue → Option (List Record)
  | JValue.arr items =>
    items.foldr
      (fun v acc =>
        match v, acc with
        | JValue.obj fields, some rs => some (fields :: rs)
        | _, _ => none)
      (some [])
  | _ => none

/-- `ReportsEmailActivity.get_records` from streams.py, over the list of
records already fetched by `request_records`: each record is
`post_process`ed, its `'activity'` field popped (KeyError when absent,
modelled by `none`), and one output record per activity item is yielded as
`{**transformed_record, **activity}`. -/
def reportsEmailActivity_get_records : List Record → Option (List Record)
  | [] => some []
  | record :: rest =>
    match popField (post_process record) "activity" with
    | none => none
    | some (activityVal, transformed) =>
      match asObjList activityVal with
      | none => none
      | some activities =>
        match reportsEmailActivity_get_records rest with
        | none => none
        | some out => some (activities.map (fun activity => dictMerge transformed activity) ++ out)

/-- Numeric value of a decimal digit character; `none` for non-digits. -/
def digitVal (c : Char) : Option Nat :=
  if c.isDigit then some (c.toNat - 48) else none

/-- Two decimal digit characters combined into a number. -/
def twoDigits (a b : Char) : Option Nat := do
  let x ← digitVal a
  let y ← digitVal b
  pure (10 * x + y)

/-- Four decimal digit characters combined into a number. -/
def fourDigits (a b c d : Char) : Option Nat := do
  let x ← twoDigits a b
  let y ← twoDigits c d
  pure (100 * x + y)

/-- A datetime collapsed to a single Nat, strictly monotone in
chronological order over in-range dates (month ≤ 12, day ≤ 31, hour ≤ 24,
minute, second ≤ 60). -/
def dtKey (y mo d h mi s : Nat) : Nat :=
  ((((y * 13 + mo) * 32 + d) * 25 + h) * 61 + mi) * 61 + s

/-- The external `dateutil.parser.isoparse` collaborator, modelled over the
UTC ISO-8601 shapes the tap receives: `YYYY-MM-DD`, optionally followed by
`THH:MM:SS` and a UTC designator (`Z` or `+00:00`). A missing time parses
as midnight, as in dateutil; `none` models the ValueError raised on any
other input. -/
def isoparse (ts : String) : Option Nat :=
  match ts.toList with
  | [y1, y2, y3, y4, '-', a1, a2, '-', b1, b2] => do
      let y ← fourDigits y1 y2 y3 y4
      let mo ← twoDigits a1 a2
      let d ← twoDigits b1 b2
      pure (dtKey y mo d 0 0 0)
  | y1 :: y2 :: y3 :: y4 :: '-' :: a1 :: a2 :: '-' :: b1 :: b2 :: 'T' ::
      h1 :: h2 :: ':' :: n1 :: n2 :: ':' :: s1 :: s2 :: tz => do
      let y ← fourDigits y1 y2 y3 y4
      let mo ← twoDigits a1 a2
      let d ← twoDigits b1 b2
      let h ← twoDigits h1 h2
      let mi ← twoDigits n1 n2
      let s ← twoDigits s1 s2
      if tz = [] ∨ tz = ['Z'] ∨ tz = ['+', '0', '0', ':', '0', '0'] then
        pure (dtKey y mo d h mi s)
      else none
  | _ => none

/-- `ReportsUnsubscribes.get_records` from streams.py, over the records
fetched by `request_records` and the starting timestamp
`get_starting_timestamp(context)` (already reduced to its `dtKey`). The
source computes `transformed_record = self.post_process(record, context)`
but never uses it, and yields the raw `record` whenever
`isoparse(record['timestamp']) >= starting`; `none` models an exception
escaping the generator (missing `timestamp` key or unparseable value). -/
def reportsUnsubscribes_get_records (starting : Nat) : List Record → Option (List Record)
  | [] => some []
  | record :: rest => do
    let tsVal ← lookupField record "timestamp"
    let tsStr ← match tsVal with
      | JValue.str s => some s
      | _ => none
    let t ← isoparse tsStr
    let out ← reportsUnsubscribes_get_records starting rest
    pure (if starting ≤ t then record :: out else out)

/-- The per-record emission test of `ReportsUnsubscribes.get_records`:
true exactly when the record has a parseable `timestamp` whose value is
`>=` the starting timestamp. -/
def unsubKeep (starting : Nat) (record : Record) : Bool :=
  match lookupField record "timestamp" with
  | some (JValue.str s) =>
    match isoparse s with
    | some t => starting ≤ t
    | none => false
  | _ => false

/-- `CampaignsStream.get_child_context` from streams.py:
`return {'campaign_id': record['id']}`; `none` models the KeyError when
the parent record has no `id` field. -/
def campaigns_get_child_context (record : Record) : Option Record :=
  (lookupField record "id").map (fun v => [("campaign_id", v)])

/-- `ReportsEmailActivity.path` from streams.py. -/
def reportsEmailActivity_path : String := "/reports/\x7bcampaign_id\x7d/email-activity"

/-- Replace every occurrence of `pat` in the character list by `rep`,
scanning left to right; the fuel argument (instantiated with the input
length) only makes the recursion structural. -/
def replaceChars (pat rep : List Char) : Nat → List Char → List Char
  | 0, cs => cs
  | _ + 1, [] => []
  | fuel + 1, c :: cs =>
    if pat ≠ [] ∧ (c :: cs).take pat.length = pat then
      rep ++ replaceChars pat rep fuel ((c :: cs).drop pat.length)
    else
      c :: replaceChars pat rep fuel cs

/-- Path-template resolution performed by the singer-sdk `get_url`
collaborator: each placeholder `\x7bkey\x7d` in the template is replaced
by the context value bound to `key`. -/
def resolvePath (template : String) (context : List (String × String)) : String :=
  context.foldl
    (fun url p =>
      String.mk
        (replaceChars ("\x7b" ++ p.1 ++ "\x7d").toList p.2.toList
          url.toList.length url.toList))
    template

/-- The response holds a non-empty record list under the stream's
`response_key`. -/
def nonEmptyAt (response_key : String) (r : JValue) : Prop :=
  ∃ items, getField r response_key = some (JValue.arr items) ∧ items ≠ []

/-- The response holds an empty record list under the stream's
`response_key`. -/
def emptyAt (response_key : String) (r : JValue) : Prop :=
  getField r response_key = some (JValue.arr [])

theorem range_map_offset_cons (n off : Nat) :
    (List.range (n + 1)).map (fun i => off + i * PAGE_SIZE)
      = off :: (List.range n).map (fun i => off + PAGE_SIZE + i * PAGE_SIZE) := by
  rw [List.range_succ_eq_map, List.map_cons, List.map_map]
  refine congrArg₂ List.cons (by simp) (List.map_congr_left ?_)
  intro i _
  simp only [Function.comp_apply, Nat.succ_eq_add_one, Nat.succ_mul, Nat.add_mul]
  ring

theorem paginate_pending (key : String) (rs : List JValue) :
    ∀ off : Nat, (∀ r ∈ rs, nonEmptyAt key r) →
      paginate key off rs
        = PagResult.pending ((List.range rs.length).map (fun i => off + i * PAGE_SIZE)) := by
  induction rs with
  | nil => intro off _; simp [paginate]
  | cons r rs ih =>
    intro off h
    obtain ⟨items, hget, hne⟩ := h r (by simp)
    have hlen : items.length ≠ 0 := by simpa using hne
    have hm : has_more key r = some items.length := by simp [has_more, hget, pyLen]
    have hrec := ih (off + PAGE_SIZE) (fun x hx => h x (by simp [hx]))
    simp [paginate, hm, hlen, hrec, List.length_cons, range_map_offset_cons]

theorem paginate_halting (key : String) (rs : List JValue) :
    ∀ off : Nat, (∀ r ∈ rs, nonEmptyAt key r) → ∀ e : JValue, emptyAt key e →
      paginate key off (rs ++ [e])
        = PagResult.halted ((List.range (rs.length + 1)).map (fun i => off + i * PAGE_SIZE)) := by
  induction rs with
  | nil =>
    intro off _ e he
    have hget : getField e key = some (JValue.arr []) := he
    simp [paginate, has_more, hget, pyLen, List.range_succ]
  | cons r rs ih =>
    intro off h e he
    obtain ⟨items, hget, hne⟩ := h r (by simp)
    have hlen : items.length ≠ 0 := by simpa using hne
    have hm : has_more key r = some items.length := by simp [has_more, hget, pyLen]
    have hrec := ih (off + PAGE_SIZE) (fun x hx => h x (by simp [hx])) e he
    simp [List.cons_append, paginate, hm, hlen, hrec, List.length_cons,
      range_map_offset_cons]

theorem lookupField_append_other (fields : Record) (k k2 : String) (v : JValue)
    (h : k ≠ k2) :
    lookupField (fields ++ [(k2, v)]) k = lookupField fields k := by
  induction fields with
  | nil => simp [lookupField, Ne.symm h]
  | cons p ps ih =>
    by_cases hp : p.1 = k
    · simp [lookupField, hp]
    · simpa [lookupField, hp] using ih

/-- First-match dict lookup distributes over list append. -/
theorem lookupField_append (x y : Record) (k : String) :
    lookupField (x ++ y) k
      = match lookupField x k with
        | some v => some v
        | none => lookupField y k := by
  induction x with
  | nil => simp [lookupField]
  | cons p ps ih =>
    by_cases hp : p.1 = k
    · simp [lookupField, hp]
    · simpa [lookupField, hp] using ih

/-- C1: pagination starts at offset 0; after every response whose
`response_key` list is non-empty the token grows by the page size 1000, so
the requested offsets are `0, 1000, 2000, …`; the loop halts exactly at
the first response whose `response_key` list is empty (while every
response list is non-empty the loop is still pending); and a `next_page`
field in the response body plays no role in `has_more`. -/
theorem C1_pagination_offsets_and_termination
    (key : String) (rs : List JValue) (e : JValue)
    (fields : List (String × JValue)) (v : JValue)
    (hne : ∀ r ∈ rs, nonEmptyAt key r) (he : emptyAt key e) (hk : key ≠ "next_page") :
    paginate key 0 (rs ++ [e])
        = PagResult.halted ((List.range (rs.length + 1)).map (fun i => i * PAGE_SIZE))
      ∧ paginate key 0 rs
        = PagResult.pending ((List.range rs.length).map (fun i => i * PAGE_SIZE))
      ∧ has_more key (JValue.obj (fields ++ [("next_page", v)]))
        = has_more key (JValue.obj fields) := by
  refine ⟨?_, ?_, ?_⟩
  · simpa using paginate_halting key rs 0 hne e he
  · simpa using paginate_pending key rs 0 hne
  · simp [has_more, getField, lookupField_append_other fields key "next_page" v hk]

/-- Witness for C1 at a concrete two-page run: one non-empty page then an
empty page (the empty response even carries a `next_page` value, which is
ignored). -/
theorem C1_witness :
    paginate "campaigns" 0
        ([JValue.obj [("campaigns", JValue.arr [JValue.null])]]
          ++ [JValue.obj [("campaigns", JValue.arr []), ("next_page", JValue.str "n")]])
        = PagResult.halted [0, 1000]
      ∧ paginate "campaigns" 0 [JValue.obj [("campaigns", JValue.arr [JValue.null])]]
        = PagResult.pending [0]
      ∧ has_more "campaigns"
          (JValue.obj ([("campaigns", JValue.arr [])] ++ [("next_page", JValue.str "x")]))
        = has_more "campaigns" (JValue.obj [("campaigns", JValue.arr [])]) := by
  have h := C1_pagination_offsets_and_termination "campaigns"
    [JValue.obj [("campaigns", JValue.arr [JValue.null])]]
    (JValue.obj [("campaigns", JValue.arr []), ("next_page", JValue.str "n")])
    [("campaigns", JValue.arr [])] (JValue.str "x")
    (by
      intro r hr
      simp only [List.mem_singleton] at hr
      subst hr
      exact ⟨[JValue.null], rfl, by simp⟩)
    rfl
    (by decide)
  obtain ⟨h1, h2, h3⟩ := h
  refine ⟨?_, ?_, h3⟩
  · simpa [List.range_succ, PAGE_SIZE] using h1
  · simpa [List.range_succ, PAGE_SIZE] using h2

/-- C2 counterexample: a response body with no `response_key` field does
NOT behave like an empty list. On `\x7b\x7d` the pagination step raises
(`has_more` hits a KeyError, modelled as `none`) and `paginate` reports an
error, while an actually empty list halts normally; the two `has_more`
results differ. -/
theorem C2_counterexample :
    paginate "unsubscribes" 0 [JValue.obj []] = PagResult.error [0]
      ∧ paginate "unsubscribes" 0 [JValue.obj [("unsubscribes", JValue.arr [])]]
          = PagResult.halted [0]
      ∧ has_more "unsubscribes" (JValue.obj [])
          ≠ has_more "unsubscribes" (JValue.obj [("unsubscribes", JValue.arr [])]) := by
  refine ⟨rfl, rfl, by decide⟩

/-- C2 (amended): a response body whose `response_key` field is missing,
or whose value has no Python length, makes the pagination step raise
(KeyError / TypeError escapes `has_more`), terminating the run abnormally
rather than signalling "no more pages"; only a present value of length
zero — in particular an empty record list — halts pagination normally. -/
theorem C2_missing_key_raises
    (key : String) (r : JValue) (rs : List JValue) (off : Nat) :
    (getField r key = none →
        has_more key r = none ∧ paginate key off (r :: rs) = PagResult.error [off])
      ∧ (∀ v, getField r key = some v → pyLen v = none →
          has_more key r = none ∧ paginate key off (r :: rs) = PagResult.error [off])
      ∧ (getField r key = some (JValue.arr []) →
          paginate key off (r :: rs) = PagResult.halted [off]) := by
  refine ⟨?_, ?_, ?_⟩
  · intro h
    have hm : has_more key r = none := by simp [has_more, h]
    exact ⟨hm, by simp [paginate, hm]⟩
  · intro v hv hlen
    have hm : has_more key r = none := by simp [has_more, hv, hlen]
    exact ⟨hm, by simp [paginate, hm]⟩
  · intro h
    have hm : has_more key r = some 0 := by simp [has_more, h, pyLen]
    simp [paginate, hm]

/-- Witness for C2's amended statement: a body without the key raises, a
body whose value is a bare number raises, an empty list halts. -/
theorem C2_missing_key_raises_witness :
    (has_more "unsubscribes" (JValue.obj [("total_items", JValue.num 0)]) = none
        ∧ paginate "unsubscribes" 0 [JValue.obj [("total_items", JValue.num 0)]]
            = PagResult.error [0])
      ∧ (has_more "lists" (JValue.obj [("lists", JValue.num 7)]) = none
        ∧ paginate "lists" 0 [JValue.obj [("lists", JValue.num 7)]] = PagResult.error [0])
      ∧ paginate "lists" 3000 [JValue.obj [("lists", JValue.arr [])]]
          = PagResult.halted [3000] :=
  ⟨(C2_missing_key_raises "unsubscribes" (JValue.obj [("total_items", JValue.num 0)]) [] 0).1
      rfl,
    (C2_missing_key_raises "lists" (JValue.obj [("lists", JValue.num 7)]) [] 0).2.1
      (JValue.num 7) rfl rfl,
    (C2_missing_key_raises "lists" (JValue.obj [("lists", JValue.arr [])]) [] 3000).2.2 rfl⟩

/-- C3: for every stream configuration, pagination token and starting
replication value, the query parameters hold `count = 1000`; they hold
`offset` equal to the token exactly when the token is nonzero and no
`offset` key at all when it is 0; they hold `exclude_fields` as the
comma-join of `response_key.field` whenever the excluded-field list is
non-empty; and each incremental child stream adds its filter (`since` for
reports_email_activity and reports_unsubscribes, `since_last_changed` for
lists_members) bound to the starting replication value. -/
theorem C3_url_params (key : String) (excl : List String) (token : Nat)
    (starting : PValue) :
    ("count", PValue.int 1000) ∈ get_url_params key excl token
      ∧ ((("offset", PValue.int token) ∈ get_url_params key excl token) ↔ token ≠ 0)
      ∧ (token = 0 → ∀ v, ("offset", v) ∉ get_url_params key excl token)
      ∧ (excl ≠ [] →
          ("exclude_fields", PValue.str (joinExcludeFields key excl))
            ∈ get_url_params key excl token)
      ∧ ("since", starting) ∈ reportsEmailActivity_get_url_params token starting
      ∧ ("since_last_changed", starting) ∈ listsMembers_get_url_params token starting
      ∧ ("since", starting) ∈ reportsUnsubscribes_get_url_params token starting := by
  refine ⟨?_, ?_, ?_, ?_, ?_, ?_, ?_⟩
  · simp [get_url_params, PAGE_SIZE]
  · by_cases ht : token = 0
    · subst ht
      by_cases he : excl = [] <;> simp [get_url_params, he]
    · by_cases he : excl = [] <;> simp [get_url_params, ht, he]
  · intro ht v
    subst ht
    by_cases he : excl = [] <;> simp [get_url_params, he]
  · intro he
    by_cases ht : token = 0 <;> simp [get_url_params, ht, he]
  · by_cases ht : token = 0 <;>
      simp [reportsEmailActivity_get_url_params, get_url_params, ht]
  · by_cases ht : token = 0 <;>
      simp [listsMembers_get_url_params, get_url_params, ht]
  · by_cases ht : token = 0 <;>
      simp [reportsUnsubscribes_get_url_params, get_url_params, ht]

/-- Witness for C3 at token 5 (second page) and token 0 (first page) for
the lists_members configuration. -/
theorem C3_url_params_witness :
    ("count", PValue.int 1000)
        ∈ get_url_params "members" ["_links", "merge_fields", "location"] 5
      ∧ ("offset", PValue.int 5)
        ∈ get_url_params "members" ["_links", "merge_fields", "location"] 5
      ∧ ("offset", PValue.int 0)
        ∉ get_url_params "members" ["_links", "merge_fields", "location"] 0
      ∧ ("exclude_fields",
            PValue.str "members._links,members.merge_fields,members.location")
        ∈ get_url_params "members" ["_links", "merge_fields", "location"] 5
      ∧ ("since_last_changed", PValue.dt 7) ∈ listsMembers_get_url_params 5 (PValue.dt 7) := by
  have h := C3_url_params "members" ["_links", "merge_fields", "location"] 5 (PValue.dt 7)
  have h0 := C3_url_params "members" ["_links", "merge_fields", "location"] 0 (PValue.dt 7)
  refine ⟨h.1, h.2.1.mpr (by decide), h0.2.2.1 rfl (PValue.int 0), ?_, h.2.2.2.2.2.1⟩
  have hx := h.2.2.2.1 (by decide)
  have hj : joinExcludeFields "members" ["_links", "merge_fields", "location"]
      = "members._links,members.merge_fields,members.location" := by decide
  rw [hj] at hx
  exact hx

theorem isEmptyStr_iff (v : JValue) : isEmptyStr v = true ↔ v = JValue.str "" := by
  cases v <;> simp [isEmptyStr]

theorem coerce_idem (v : JValue) :
    (if isEmptyStr (if isEmptyStr v then JValue.null else v) then JValue.null
      else if isEmptyStr v then JValue.null else v)
      = if isEmptyStr v then JValue.null else v := by
  cases v with
  | str s => by_cases hs : s = "" <;> simp [isEmptyStr, hs]
  | null => rfl
  | bool b => rfl
  | num n => rfl
  | arr items => rfl
  | obj fields => rfl

/-- C4: `post_process` is idempotent; it maps `\x7b"last_changed": ""\x7d`
to `\x7b"last_changed": null\x7d`; it leaves the keys and their order
unchanged; every binding whose value is not the empty string (nested
structures included) survives untouched; and every empty-string binding
becomes a null binding. -/
theorem C4_null_coercion (row : Record) :
    post_process (post_process row) = post_process row
      ∧ post_process [("last_changed", JValue.str "")] = [("last_changed", JValue.null)]
      ∧ (post_process row).map Prod.fst = row.map Prod.fst
      ∧ (∀ k v, (k, v) ∈ row → v ≠ JValue.str "" → (k, v) ∈ post_process row)
      ∧ (∀ k v, (k, v) ∈ row → v = JValue.str "" → (k, JValue.null) ∈ post_process row) := by
  refine ⟨?_, rfl, ?_, ?_, ?_⟩
  · unfold post_process
    rw [List.map_map]
    refine List.map_congr_left ?_
    intro p _
    simp only [Function.comp_apply]
    exact congrArg (Prod.mk p.1) (coerce_idem p.2)
  · unfold post_process
    rw [List.map_map]
    rfl
  · intro k v hmem hne
    have hv : isEmptyStr v = false := by
      rcases Bool.eq_false_or_eq_true (isEmptyStr v) with h | h
      · exact absurd ((isEmptyStr_iff v).mp h) hne
      · exact h
    refine List.mem_map.mpr ⟨(k, v), hmem, ?_⟩
    simp [hv]
  · intro k v hmem hv
    subst hv
    refine List.mem_map.mpr ⟨(k, JValue.str ""), hmem, ?_⟩
    simp [isEmptyStr]

/-- Witness for C4 on a record mixing an empty string, a non-empty string
and a nested structure. -/
theorem C4_null_coercion_witness :
    post_process (post_process
        [("last_changed", JValue.str ""), ("id", JValue.str "abc"),
          ("stats", JValue.obj [("opens", JValue.str "")])])
        = post_process
          [("last_changed", JValue.str ""), ("id", JValue.str "abc"),
            ("stats", JValue.obj [("opens", JValue.str "")])]
      ∧ ("id", JValue.str "abc") ∈ post_process
          [("last_changed", JValue.str ""), ("id", JValue.str "abc"),
            ("stats", JValue.obj [("opens", JValue.str "")])]
      ∧ ("stats", JValue.obj [("opens", JValue.str "")]) ∈ post_process
          [("last_changed", JValue.str ""), ("id", JValue.str "abc"),
            ("stats", JValue.obj [("opens", JValue.str "")])]
      ∧ ("last_changed", JValue.null) ∈ post_process
          [("last_changed", JValue.str ""), ("id", JValue.str "abc"),
            ("stats", JValue.obj [("opens", JValue.str "")])] := by
  have h := C4_null_coercion
    [("last_changed", JValue.str ""), ("id", JValue.str "abc"),
      ("stats", JValue.obj [("opens", JValue.str "")])]
  exact ⟨h.1,
    h.2.2.2.1 "id" (JValue.str "abc") (by simp) (by simp),
    h.2.2.2.1 "stats" (JValue.obj [("opens", JValue.str "")]) (by simp) (by simp),
    h.2.2.2.2 "last_changed" (JValue.str "") (by simp) rfl⟩

/-- C5: for the unsorted reports_unsubscribes stream, a fetched record is
emitted exactly when its `timestamp` replication-key value parses to a
datetime `>=` the starting value (the output is the input filtered by that
test, order preserved); and concretely, with starting value
`2023-01-10T00:00:00Z`, a record stamped `2023-01-09` is dropped while a
record stamped `2023-01-11` is emitted. -/
theorem C5_unsorted_filtering (starting : Nat) (records : List Record)
    (h : ∀ r ∈ records, ∃ s t,
      lookupField r "timestamp" = some (JValue.str s) ∧ isoparse s = some t) :
    reportsUnsubscribes_get_records starting records
        = some (records.filter (unsubKeep starting))
      ∧ (isoparse "2023-01-10T00:00:00Z").bind
          (fun t0 => reportsUnsubscribes_get_records t0
            [[("email_id", JValue.str "a"), ("timestamp", JValue.str "2023-01-09")],
              [("email_id", JValue.str "b"), ("timestamp", JValue.str "2023-01-11")]])
        = some [[("email_id", JValue.str "b"), ("timestamp", JValue.str "2023-01-11")]] := by
  refine ⟨?_, rfl⟩
  induction records with
  | nil => rfl
  | cons r rs ih =>
    obtain ⟨s, t, hl, hp⟩ := h r (by simp)
    have hrec := ih (fun x hx => h x (by simp [hx]))
    by_cases hk : starting ≤ t
    · simp [reportsUnsubscribes_get_records, hl, hp, hrec, List.filter_cons,
        unsubKeep, hk]
    · simp [reportsUnsubscribes_get_records, hl, hp, hrec, List.filter_cons,
        unsubKeep, hk]

/-- Witness for C5 on the two concrete candidate records of the claim. -/
theorem C5_unsorted_filtering_witness :
    reportsUnsubscribes_get_records 78290770250
        [[("email_id", JValue.str "a"), ("timestamp", JValue.str "2023-01-09")],
          [("email_id", JValue.str "b"), ("timestamp", JValue.str "2023-01-11")]]
      = some [[("email_id", JValue.str "b"), ("timestamp", JValue.str "2023-01-11")]] := by
  have h := (C5_unsorted_filtering 78290770250
    [[("email_id", JValue.str "a"), ("timestamp", JValue.str "2023-01-09")],
      [("email_id", JValue.str "b"), ("timestamp", JValue.str "2023-01-11")]]
    (by
      intro r hr
      simp only [List.mem_cons, List.not_mem_nil, or_false] at hr
      rcases hr with hr | hr
      · refine ⟨"2023-01-09", 78290677225, ?_, rfl⟩
        rw [hr]
        rfl
      · refine ⟨"2023-01-11", 78290863275, ?_, rfl⟩
        rw [hr]
        rfl)).1
  exact h.trans rfl

/-- `post_process` rewrites each value in place, so dict lookup commutes
with it: the looked-up value is the coerced original. -/
theorem lookupField_post_process (r : Record) (k : String) :
    lookupField (post_process r) k
      = (lookupField r k).map (fun v => if isEmptyStr v then JValue.null else v) := by
  induction r with
  | nil => rfl
  | cons p ps ih =>
    by_cases hp : p.1 = k
    · simp [post_process, lookupField, hp]
    · simpa [post_process, lookupField, hp] using ih

theorem asObjList_map_obj (items : List Record) :
    asObjList (JValue.arr (items.map JValue.obj)) = some items := by
  induction items with
  | nil => rfl
  | cons a as ih =>
    simp only [asObjList, List.map_cons, List.foldr_cons] at ih ⊢
    rw [ih]

/-- C6: a reports_email_activity record whose `activity` field holds a
list of n sub-dicts expands to exactly those n output records, in order,
each one the (post-processed) parent minus the `activity` field merged
with one activity item; on the claim's concrete input the two expected
records come out in order. -/
theorem C6_expansion (record : Record) (items : List Record)
    (h : lookupField record "activity" = some (JValue.arr (items.map JValue.obj))) :
    reportsEmailActivity_get_records [record]
        = some (items.map (fun activity =>
            dictMerge ((post_process record).filter (fun p => p.1 ≠ "activity")) activity))
      ∧ reportsEmailActivity_get_records
          [[("campaign_id", JValue.str "x"),
            ("activity", JValue.arr [JValue.obj [("action", JValue.str "open")],
                                      JValue.obj [("action", JValue.str "click")]])]]
        = some [[("campaign_id", JValue.str "x"), ("action", JValue.str "open")],
                [("campaign_id", JValue.str "x"), ("action", JValue.str "click")]] := by
  refine ⟨?_, rfl⟩
  have hpp : lookupField (post_process record) "activity"
      = some (JValue.arr (items.map JValue.obj)) := by
    rw [lookupField_post_process, h]
    rfl
  simp [reportsEmailActivity_get_records, popField, hpp, asObjList_map_obj]

/-- Witness for C6 on a three-item activity list next to an extra parent
field. -/
theorem C6_expansion_witness :
    reportsEmailActivity_get_records
        [[("campaign_id", JValue.str "c1"), ("list_id", JValue.str "l1"),
          ("activity", JValue.arr
            [JValue.obj [("action", JValue.str "open")],
              JValue.obj [("action", JValue.str "click")],
              JValue.obj [("action", JValue.str "bounce")]])]]
      = some [[("campaign_id", JValue.str "c1"), ("list_id", JValue.str "l1"),
                ("action", JValue.str "open")],
              [("campaign_id", JValue.str "c1"), ("list_id", JValue.str "l1"),
                ("action", JValue.str "click")],
              [("campaign_id", JValue.str "c1"), ("list_id", JValue.str "l1"),
                ("action", JValue.str "bounce")]] := by
  have h := (C6_expansion
    [("campaign_id", JValue.str "c1"), ("list_id", JValue.str "l1"),
      ("activity", JValue.arr
        [JValue.obj [("action", JValue.str "open")],
          JValue.obj [("action", JValue.str "click")],
          JValue.obj [("action", JValue.str "bounce")]])]
    [[("action", JValue.str "open")], [("action", JValue.str "click")],
      [("action", JValue.str "bounce")]]
    rfl).1
  exact h.trans rfl

/-- C7: the derived child context of a campaigns parent record is exactly
the singleton `\x7bcampaign_id: record["id"]\x7d` whatever else the parent
record holds; the concrete parent `\x7b"id": "abc"\x7d` yields
`\x7bcampaign_id: "abc"\x7d`; and that context resolves the child path
template to `/reports/abc/email-activity`. -/
theorem C7_child_context (record : Record) (v : JValue)
    (h : lookupField record "id" = some v) :
    campaigns_get_child_context record = some [("campaign_id", v)]
      ∧ campaigns_get_child_context [("id", JValue.str "abc")]
          = some [("campaign_id", JValue.str "abc")]
      ∧ resolvePath reportsEmailActivity_path [("campaign_id", "abc")]
          = "/reports/abc/email-activity" := by
  exact ⟨by simp [campaigns_get_child_context, h], rfl, rfl⟩

/-- Witness for C7 on a parent record with extra fields beside `id`. -/
theorem C7_child_context_witness :
    campaigns_get_child_context
        [("id", JValue.str "abc"), ("web_id", JValue.num 42),
          ("settings", JValue.obj [("title", JValue.str "t")])]
      = some [("campaign_id", JValue.str "abc")] :=
  (C7_child_context
    [("id", JValue.str "abc"), ("web_id", JValue.num 42),
      ("settings", JValue.obj [("title", JValue.str "t")])]
    (JValue.str "abc") rfl).1

/-- C9: `ReportsEmailActivity.get_records` pops the `activity` field
unconditionally, so a fetched record lacking it makes the whole operation
raise (KeyError, modelled as `none`) instead of being skipped or emitted
unexpanded. -/
theorem C9_missing_activity_raises (record : Record) (rest : List Record)
    (h : lookupField record "activity" = none) :
    reportsEmailActivity_get_records (record :: rest) = none := by
  have hpp : lookupField (post_process record) "activity" = none := by
    rw [lookupField_post_process, h]
    rfl
  simp [reportsEmailActivity_get_records, popField, hpp]

/-- Witness for C9: a record with no `activity` field aborts the batch
even when a later record is well-formed. -/
theorem C9_missing_activity_raises_witness :
    reportsEmailActivity_get_records
        [[("campaign_id", JValue.str "x"), ("email_id", JValue.str "e")],
          [("campaign_id", JValue.str "x"), ("activity", JValue.arr [])]]
      = none :=
  C9_missing_activity_raises
    [("campaign_id", JValue.str "x"), ("email_id", JValue.str "e")]
    [[("campaign_id", JValue.str "x"), ("activity", JValue.arr [])]]
    rfl

/-- Lookup in the left (override) half of `dictMerge`: keys come from `a`,
values are overridden by `b` where `b` binds the key. -/
theorem lookupField_dictMerge_left (a b : Record) (k : String) :
    lookupField (a.map (fun p => (p.1, match lookupField b p.1 with
      | some v => v
      | none => p.2))) k
      = (lookupField a k).map (fun w => match lookupField b k with
        | some v => v
        | none => w) := by
  induction a with
  | nil => rfl
  | cons p ps ih =>
    by_cases hp : p.1 = k
    · simp [lookupField, hp]
    · simpa [lookupField, hp] using ih

/-- Filtering keeps the first binding of `k` when the predicate accepts
every binding of `k`, so lookup is preserved. -/
theorem lookupField_filter_keep (b : Record) (k : String) (v : JValue)
    (q : String × JValue → Bool) (h : lookupField b k = some v)
    (hq : ∀ w, q (k, w) = true) :
    lookupField (b.filter q) k = some v := by
  induction b with
  | nil => simp [lookupField] at h
  | cons p ps ih =>
    obtain ⟨pk, pv⟩ := p
    by_cases hp : pk = k
    · subst hp
      have h2 : pv = v := by simpa [lookupField] using h
      simp [List.filter_cons, h2, hq v, lookupField]
    · have h2 : lookupField ps k = some v := by simpa [lookupField, hp] using h
      have ih2 := ih h2
      by_cases hqp : q (pk, pv) = true
      · simp [List.filter_cons, hqp, lookupField, hp, ih2]
      · simp [List.filter_cons, hqp, ih2]

/-- C10: the `\x7b**transformed_record, **activity\x7d` merge used by the
reports_email_activity expansion is right-biased: whenever the activity
item binds a key, the merged record holds the item's value for that key,
overriding any parent value; concretely a parent `url` field is overridden
by the activity item's `url`. -/
theorem C10_merge_right_bias (a b : Record) (k : String) (v : JValue)
    (h : lookupField b k = some v) :
    lookupField (dictMerge a b) k = some v
      ∧ reportsEmailActivity_get_records
          [[("campaign_id", JValue.str "x"), ("url", JValue.str "parent"),
            ("activity", JValue.arr [JValue.obj [("url", JValue.str "child"),
                                                  ("action", JValue.str "open")]])]]
        = some [[("campaign_id", JValue.str "x"), ("url", JValue.str "child"),
                  ("action", JValue.str "open")]] := by
  refine ⟨?_, rfl⟩
  unfold dictMerge
  rw [lookupField_append, lookupField_dictMerge_left]
  cases hl : lookupField a k with
  | none =>
    simp only [hl, Option.map_none']
    exact lookupField_filter_keep b k v _ h (fun w => by simp [hl])
  | some w =>
    simp [hl, h]

/-- Witness for C10: the activity item's `url` wins over the parent's. -/
theorem C10_merge_right_bias_witness :
    lookupField
        (dictMerge [("url", JValue.str "parent"), ("campaign_id", JValue.str "x")]
          [("url", JValue.str "child"), ("action", JValue.str "open")]) "url"
      = some (JValue.str "child") :=
  (C10_merge_right_bias [("url", JValue.str "parent"), ("campaign_id", JValue.str "x")]
    [("url", JValue.str "child"), ("action", JValue.str "open")] "url"
    (JValue.str "child") rfl).1

/-- C8: the code contradicts the claim. `ReportsUnsubscribes.get_records`
computes `transformed_record = self.post_process(record, context)` but then
yields the raw `record`, so an emitted record keeps its empty-string
values even though `post_process` (whose own docstring demands the
coercion, and which the sibling stream does apply before emitting) would
have nulled them: on the failing input below the code emits the record
with `email_id = ""` unchanged, while `post_process` maps it to null. -/
theorem C8_raw_record_emitted :
    reportsUnsubscribes_get_records 0
        [[("email_id", JValue.str ""), ("timestamp", JValue.str "2023-01-11")]]
        = some [[("email_id", JValue.str ""), ("timestamp", JValue.str "2023-01-11")]]
      ∧ post_process [("email_id", JValue.str ""), ("timestamp", JValue.str "2023-01-11")]
        = [("email_id", JValue.null), ("timestamp", JValue.str "2023-01-11")]
      ∧ ("email_id", JValue.str "")
          ∈ [("email_id", JValue.str ""), ("timestamp", JValue.str "2023-01-11")] :=
  ⟨rfl, rfl, by simp⟩

end TapMailchimp

